import Mathlib

/-!
Verification of the Next.js app-route segment model
(`packages/next-swc/crates/next-core/src/next_app/mod.rs`).

Strings are modelled as lists of characters (`Str := List Char`); Rust's
`strip_prefix` / `strip_suffix` become `dropPre?` / `dropSuf?`, and the
fallible operations return `Except SegmentError` where the Rust code bails
with an `anyhow` error (one `SegmentError` constructor per distinct `bail!`
site).
-/

namespace NextApp

/-- Tokens and rendered strings: lists of characters. -/
abbrev Str := List Char

/-- Rust `str::strip_prefix`: if `s` starts with `pre`, the remainder. -/
def dropPre? : Str → Str → Option Str
  | [], s => some s
  | _ :: _, [] => none
  | p :: ps, c :: cs => if p = c then dropPre? ps cs else none

/-- Rust `str::strip_suffix`: if `s` ends with `suf`, the front part. -/
def dropSuf? (suf s : Str) : Option Str :=
  (dropPre? suf.reverse s.reverse).map List.reverse

/-- Rust `str::split` on a single separator character. -/
def splitChar (sep : Char) : Str → List Str
  | [] => [[]]
  | c :: cs =>
    if c = sep then
      [] :: splitChar sep cs
    else
      match splitChar sep cs with
      | [] => [[c]]
      | t :: ts => (c :: t) :: ts

/-- `enum PageType { Page, Route }`. -/
inductive PageType where
  | Page
  | Route
deriving DecidableEq, Repr

/-- `impl Display for PageType`. -/
def PageType.render : PageType → Str
  | .Page => "page".toList
  | .Route => "route".toList

/-- `enum PageSegment`. -/
inductive PageSegment where
  | Static (s : Str)
  | Dynamic (s : Str)
  | CatchAll (s : Str)
  | OptionalCatchAll (s : Str)
  | Group (s : Str)
  | Parallel (s : Str)
  | PageType (t : PageType)
deriving DecidableEq, Repr

/-- One constructor per `bail!` site in the source. -/
inductive SegmentError where
  /-- "empty segments are not allowed" -/
  | EmptySegment
  /-- "slashes are not allowed in segments" -/
  | IllegalSlash
  /-- "Invalid segment {segment}, catch all segment must be the last segment" -/
  | InvalidAppend (segment : PageSegment)
deriving DecidableEq, Repr

/-- `PageSegment::parse`. -/
def PageSegment.parse (segment : Str) : Except SegmentError PageSegment :=
  if segment = [] then
    .error .EmptySegment
  else if '/' ∈ segment then
    .error .IllegalSlash
  else
    match (dropPre? ['('] segment).bind (dropSuf? [')']) with
    | some s => .ok (.Group s)
    | none =>
      match dropPre? ['@'] segment with
      | some s => .ok (.Parallel s)
      | none =>
        match (dropPre? "[[...".toList segment).bind (dropSuf? "]]".toList) with
        | some s => .ok (.OptionalCatchAll s)
        | none =>
          match (dropPre? "[...".toList segment).bind (dropSuf? [']']) with
          | some s => .ok (.CatchAll s)
          | none =>
            match (dropPre? ['['] segment).bind (dropSuf? [']']) with
            | some s => .ok (.Dynamic s)
            | none => .ok (.Static segment)

/-- `impl Display for PageSegment`. -/
def PageSegment.render : PageSegment → Str
  | .Static s => s
  | .Dynamic s => ['['] ++ s ++ [']']
  | .CatchAll s => "[...".toList ++ s ++ [']']
  | .OptionalCatchAll s => "[[...".toList ++ s ++ "]]".toList
  | .Group s => ['('] ++ s ++ [')']
  | .Parallel s => ['@'] ++ s
  | .PageType t => t.render

/-- The `matches!(.., CatchAll(..) | OptionalCatchAll(..))` test in `AppPage::push`. -/
def PageSegment.isCatchAllKind : PageSegment → Bool
  | .CatchAll _ => true
  | .OptionalCatchAll _ => true
  | _ => false

/-- The `matches!(.., PageType(..))` test in `AppPage::push`. -/
def PageSegment.isPageTypeKind : PageSegment → Bool
  | .PageType _ => true
  | _ => false

/-- `struct AppPage(pub Vec<PageSegment>)`. -/
structure AppPage where
  segments : List PageSegment
deriving DecidableEq, Repr

/-- `AppPage::push`, with the post-call state of `self` as first component
(Rust mutates `self` in place; on `bail!` it is left untouched). -/
def AppPage.pushState (p : AppPage) (segment : PageSegment) :
    AppPage × Option SegmentError :=
  if (p.segments.getLast?.elim false PageSegment.isCatchAllKind)
      && !segment.isPageTypeKind then
    (p, some (.InvalidAppend segment))
  else
    (⟨p.segments ++ [segment]⟩, none)

/-- `AppPage::push` as a `Result`: the container after a successful call. -/
def AppPage.push (p : AppPage) (segment : PageSegment) :
    Except SegmentError AppPage :=
  match p.pushState segment with
  | (p1, none) => .ok p1
  | (_, some e) => .error e

/-- `AppPage::push_str`, state-passing form (empty token: no-op success). -/
def AppPage.pushStrState (p : AppPage) (segment : Str) :
    AppPage × Option SegmentError :=
  if segment = [] then
    (p, none)
  else
    match PageSegment.parse segment with
    | .error e => (p, some e)
    | .ok s => p.pushState s

/-- `AppPage::push_str` as a `Result`. -/
def AppPage.pushStr (p : AppPage) (segment : Str) : Except SegmentError AppPage :=
  match p.pushStrState segment with
  | (p1, none) => .ok p1
  | (_, some e) => .error e

/-- `AppPage::clone_push`: clone, push into the clone, return it. -/
def AppPage.clonePush (p : AppPage) (segment : PageSegment) :
    Except SegmentError AppPage :=
  p.push segment

/-- `AppPage::clone_push_str`. -/
def AppPage.clonePushStr (p : AppPage) (segment : Str) :
    Except SegmentError AppPage :=
  p.pushStr segment

/-- `AppPage::parse`: split on `'/'` and `push_str` each piece in order,
propagating the first error. -/
def AppPage.parse (page : Str) : Except SegmentError AppPage :=
  (splitChar '/' page).foldlM AppPage.pushStr ⟨[]⟩

/-- `impl Display for AppPage`. -/
def AppPage.render (p : AppPage) : Str :=
  if p.segments = [] then
    ['/']
  else
    p.segments.foldl (fun acc segment => acc ++ '/' :: segment.render) []

/-- `enum PathSegment`. -/
inductive PathSegment where
  | Static (s : Str)
  | Dynamic (s : Str)
  | CatchAll (s : Str)
  | OptionalCatchAll (s : Str)
deriving DecidableEq, Repr

/-- `impl Display for PathSegment`. -/
def PathSegment.render : PathSegment → Str
  | .Static s => s
  | .Dynamic s => ['['] ++ s ++ [']']
  | .CatchAll s => "[...".toList ++ s ++ [']']
  | .OptionalCatchAll s => "[[...".toList ++ s ++ "]]".toList

/-- `struct AppPath(pub Vec<PathSegment>)`. -/
structure AppPath where
  segments : List PathSegment
deriving DecidableEq, Repr

/-- `impl Display for AppPath`. -/
def AppPath.render (p : AppPath) : Str :=
  if p.segments = [] then
    ['/']
  else
    p.segments.foldl (fun acc segment => acc ++ '/' :: segment.render) []

/-- `impl From<AppPage> for AppPath` (a `filter_map`). -/
def AppPath.ofAppPage (p : AppPage) : AppPath :=
  ⟨p.segments.filterMap fun segment =>
    match segment with
    | .Static s => some (PathSegment.Static s)
    | .Dynamic s => some (PathSegment.Dynamic s)
    | .CatchAll s => some (PathSegment.CatchAll s)
    | .OptionalCatchAll s => some (PathSegment.OptionalCatchAll s)
    | _ => none⟩

/-! ### Helper lemmas -/

theorem dropPre?_eq_some {pre : Str} :
    ∀ {s r : Str}, dropPre? pre s = some r → s = pre ++ r := by
  induction pre with
  | nil =>
    intro s r h
    simp only [dropPre?, Option.some.injEq] at h
    simp [h]
  | cons p ps ih =>
    intro s r h
    cases s with
    | nil => simp [dropPre?] at h
    | cons c cs =>
      simp only [dropPre?] at h
      by_cases hpc : p = c
      · rw [if_pos hpc] at h
        subst hpc
        simp [ih h]
      · rw [if_neg hpc] at h
        exact absurd h (by simp)

theorem dropSuf?_eq_some {suf s r : Str} (h : dropSuf? suf s = some r) :
    s = r ++ suf := by
  unfold dropSuf? at h
  cases hp : dropPre? suf.reverse s.reverse with
  | none => rw [hp] at h; simp at h
  | some a =>
    rw [hp] at h
    simp at h
    have h2 := dropPre?_eq_some hp
    calc s = s.reverse.reverse := (List.reverse_reverse s).symm
    _ = (suf.reverse ++ a).reverse := by rw [h2]
    _ = a.reverse ++ suf := by simp
    _ = r ++ suf := by rw [h]

theorem parse_ok_of_wf {t : Str} (h1 : t ≠ []) (h2 : '/' ∉ t) :
    ∃ s, PageSegment.parse t = .ok s := by
  unfold PageSegment.parse
  rw [if_neg h1, if_neg (by simpa using h2)]
  split
  · exact ⟨_, rfl⟩
  split
  · exact ⟨_, rfl⟩
  split
  · exact ⟨_, rfl⟩
  split
  · exact ⟨_, rfl⟩
  split
  · exact ⟨_, rfl⟩
  · exact ⟨_, rfl⟩

theorem foldl_slash_eq {α : Type} (f : α → Str) :
    ∀ (l : List α) (acc : Str),
      l.foldl (fun a s => a ++ '/' :: f s) acc
        = acc ++ (l.map fun s => '/' :: f s).flatten := by
  intro l
  induction l with
  | nil => intro acc; simp
  | cons hd tl ih =>
    intro acc
    simp only [List.foldl_cons, List.map_cons, List.flatten]
    rw [ih]
    simp

theorem pushState_error_fst (p : AppPage) (seg : PageSegment) (e : SegmentError)
    (h : (p.pushState seg).2 = some e) : (p.pushState seg).1 = p := by
  by_cases hc : ((p.segments.getLast?.elim false PageSegment.isCatchAllKind)
      && !seg.isPageTypeKind) = true
  · simp [AppPage.pushState, hc]
  · simp [AppPage.pushState, hc] at h

theorem pushStrState_error_fst (p : AppPage) (t : Str) (e : SegmentError)
    (h : (p.pushStrState t).2 = some e) : (p.pushStrState t).1 = p := by
  unfold AppPage.pushStrState at *
  by_cases ht : t = []
  · rw [if_pos ht] at h
    simp at h
  · rw [if_neg ht] at h ⊢
    cases hp : PageSegment.parse t with
    | error e1 => rfl
    | ok s =>
      rw [hp] at h
      exact pushState_error_fst p s e h

theorem parse_ok_not_pageType (t : Str) (r : PageSegment)
    (h : PageSegment.parse t = .ok r) : r.isPageTypeKind = false := by
  unfold PageSegment.parse at h
  repeat' split at h
  all_goals first
    | (injection h with hh; subst hh; rfl)
    | injection h

/-! ### Claim theorems -/

/-- C1: for every non-empty token `t` with no `'/'` character, parsing `t`
succeeds and rendering the parsed segment reproduces `t` exactly
(`Display(PageSegment::parse t) = t`), including malformed bracket forms
that fall through to `Static`. -/
theorem C1_render_parse_roundtrip (t : Str) (h1 : t ≠ []) (h2 : '/' ∉ t) :
    (PageSegment.parse t).map PageSegment.render = .ok t := by
  unfold PageSegment.parse
  rw [if_neg h1, if_neg (by simpa using h2)]
  split
  next s hs =>
    obtain ⟨a, ha, hb⟩ := Option.bind_eq_some.mp hs
    have e1 := dropPre?_eq_some ha
    have e2 := dropSuf?_eq_some hb
    subst e1; subst e2
    simp [PageSegment.render, Except.map]
  next =>
    split
    next s hs =>
      have e1 := dropPre?_eq_some hs
      subst e1
      simp [PageSegment.render, Except.map]
    next =>
      split
      next s hs =>
        obtain ⟨a, ha, hb⟩ := Option.bind_eq_some.mp hs
        have e1 := dropPre?_eq_some ha
        have e2 := dropSuf?_eq_some hb
        subst e1; subst e2
        simp [PageSegment.render, Except.map]
      next =>
        split
        next s hs =>
          obtain ⟨a, ha, hb⟩ := Option.bind_eq_some.mp hs
          have e1 := dropPre?_eq_some ha
          have e2 := dropSuf?_eq_some hb
          subst e1; subst e2
          simp [PageSegment.render, Except.map]
        next =>
          split
          next s hs =>
            obtain ⟨a, ha, hb⟩ := Option.bind_eq_some.mp hs
            have e1 := dropPre?_eq_some ha
            have e2 := dropSuf?_eq_some hb
            subst e1; subst e2
            simp [PageSegment.render, Except.map]
          next =>
            simp [PageSegment.render, Except.map]

/-- Witness for C1 at the concrete token `"[x]"`. -/
theorem C1_render_parse_roundtrip_witness :
    ("[x]".toList ≠ ([] : Str) ∧ '/' ∉ "[x]".toList)
    ∧ (PageSegment.parse "[x]".toList).map PageSegment.render
        = .ok "[x]".toList :=
  ⟨⟨by decide, by decide⟩,
    C1_render_parse_roundtrip "[x]".toList (by decide) (by decide)⟩

/-- C6: `PageSegment::parse` applies the grammar alternatives in precedence
Group, Parallel, OptionalCatchAll, CatchAll, Dynamic, Static-fallback:
the six example tokens from the spec parse as stated; any non-empty,
slash-free token matching none of the bracketed/markered forms parses as
`Static` of the raw token; and `parse` never returns a `PageType` variant. -/
theorem C6_parse_precedence :
    PageSegment.parse "(x)".toList = .ok (.Group "x".toList)
  ∧ PageSegment.parse "@x".toList = .ok (.Parallel "x".toList)
  ∧ PageSegment.parse "[[...x]]".toList = .ok (.OptionalCatchAll "x".toList)
  ∧ PageSegment.parse "[...x]".toList = .ok (.CatchAll "x".toList)
  ∧ PageSegment.parse "[x]".toList = .ok (.Dynamic "x".toList)
  ∧ PageSegment.parse "x".toList = .ok (.Static "x".toList)
  ∧ (∀ t : Str, t ≠ [] → '/' ∉ t →
      (dropPre? ['('] t).bind (dropSuf? [')']) = none →
      dropPre? ['@'] t = none →
      (dropPre? "[[...".toList t).bind (dropSuf? "]]".toList) = none →
      (dropPre? "[...".toList t).bind (dropSuf? [']']) = none →
      (dropPre? ['['] t).bind (dropSuf? [']']) = none →
      PageSegment.parse t = .ok (.Static t))
  ∧ (∀ (t : Str) (r : PageSegment), PageSegment.parse t = .ok r →
      r.isPageTypeKind = false) := by
  refine ⟨rfl, rfl, rfl, rfl, rfl, rfl, ?_, parse_ok_not_pageType⟩
  intro t h1 h2 n1 n2 n3 n4 n5
  unfold PageSegment.parse
  rw [if_neg h1, if_neg (by simpa using h2), n1, n2, n3, n4, n5]

/-- Witness for C6 at the concrete non-matching token `"x]"` (fallback to
`Static`) and at `"x"` (never a `PageType`). -/
theorem C6_parse_precedence_witness :
    PageSegment.parse "x]".toList = .ok (.Static "x]".toList)
    ∧ (PageSegment.Static "x".toList).isPageTypeKind = false :=
  ⟨C6_parse_precedence.2.2.2.2.2.2.1 "x]".toList (by decide) (by decide)
      rfl rfl rfl rfl rfl,
    C6_parse_precedence.2.2.2.2.2.2.2 "x".toList (.Static "x".toList) rfl⟩

/-- C7: `PageSegment::parse` fails with `EmptySegment` exactly on the empty
token, fails with `IllegalSlash` exactly on non-empty tokens containing
`'/'`, and succeeds on every other token. -/
theorem C7_parse_error_conditions (t : Str) :
    (PageSegment.parse t = .error .EmptySegment ↔ t = [])
  ∧ (PageSegment.parse t = .error .IllegalSlash ↔ t ≠ [] ∧ '/' ∈ t)
  ∧ (t ≠ [] → '/' ∉ t → ∃ s, PageSegment.parse t = .ok s) := by
  by_cases h1 : t = []
  · subst h1
    refine ⟨by simp [PageSegment.parse], by simp [PageSegment.parse], by simp⟩
  · by_cases h2 : '/' ∈ t
    · have hp : PageSegment.parse t = .error .IllegalSlash := by
        unfold PageSegment.parse
        rw [if_neg h1, if_pos h2]
      rw [hp]
      exact ⟨by simp [h1], by simp [h1, h2], fun _ hn => absurd h2 hn⟩
    · obtain ⟨s, hs⟩ := parse_ok_of_wf h1 h2
      rw [hs]
      exact ⟨by simp [h1], by simp [h2], fun _ _ => ⟨s, rfl⟩⟩

/-- Witness for C7: the success clause at the concrete token `"a"` (and the
two failure clauses at `""` and `"a/b"`). -/
theorem C7_parse_error_conditions_witness :
    (∃ s, PageSegment.parse "a".toList = .ok s)
    ∧ PageSegment.parse ([] : Str) = .error .EmptySegment
    ∧ PageSegment.parse "a/b".toList = .error .IllegalSlash :=
  ⟨(C7_parse_error_conditions "a".toList).2.2 (by decide) (by decide),
    (C7_parse_error_conditions []).1.mpr rfl,
    (C7_parse_error_conditions "a/b".toList).2.1.mpr ⟨by decide, by decide⟩⟩

theorem not_pageType_iff (seg : PageSegment) :
    (∀ k, seg ≠ .PageType k) ↔ seg.isPageTypeKind = false := by
  constructor
  · intro h
    cases seg <;> first | rfl | exact absurd rfl (h _)
  · intro h k hk
    subst hk
    simp [PageSegment.isPageTypeKind] at h

theorem last_catchAll_iff (p : AppPage) :
    ((∃ n, p.segments.getLast? = some (.CatchAll n))
      ∨ (∃ n, p.segments.getLast? = some (.OptionalCatchAll n)))
    ↔ p.segments.getLast?.elim false PageSegment.isCatchAllKind = true := by
  rcases hL : p.segments.getLast? with _ | l
  · simp
  · cases l <;> simp [PageSegment.isCatchAllKind]

theorem push_invalid (p : AppPage) (seg : PageSegment)
    (hb : ((p.segments.getLast?.elim false PageSegment.isCatchAllKind)
        && !seg.isPageTypeKind) = true) :
    p.push seg = .error (.InvalidAppend seg) := by
  simp [AppPage.push, AppPage.pushState, hb]

theorem push_appends (p : AppPage) (seg : PageSegment)
    (hb : ((p.segments.getLast?.elim false PageSegment.isCatchAllKind)
        && !seg.isPageTypeKind) = false) :
    p.push seg = .ok ⟨p.segments ++ [seg]⟩ := by
  simp [AppPage.push, AppPage.pushState, hb]

/-- C4: `AppPage::push` fails with `InvalidAppend` if and only if the last
existing entry is a `CatchAll` or `OptionalCatchAll` and the pushed segment
is not a `PageType` marker; in every other case it appends the segment at
the end and succeeds. -/
theorem C4_push_contract (p : AppPage) (seg : PageSegment) :
    ((((∃ n, p.segments.getLast? = some (.CatchAll n))
        ∨ (∃ n, p.segments.getLast? = some (.OptionalCatchAll n)))
      ∧ (∀ k, seg ≠ .PageType k)) →
        p.push seg = .error (.InvalidAppend seg))
  ∧ (¬(((∃ n, p.segments.getLast? = some (.CatchAll n))
        ∨ (∃ n, p.segments.getLast? = some (.OptionalCatchAll n)))
      ∧ (∀ k, seg ≠ .PageType k)) →
        p.push seg = .ok ⟨p.segments ++ [seg]⟩) := by
  constructor
  · rintro ⟨hL, hPT⟩
    refine push_invalid p seg ?_
    rw [Bool.and_eq_true]
    exact ⟨(last_catchAll_iff p).mp hL,
      by simp [(not_pageType_iff seg).mp hPT]⟩
  · intro hn
    refine push_appends p seg ?_
    rcases Bool.eq_false_or_eq_true
        ((p.segments.getLast?.elim false PageSegment.isCatchAllKind)
          && !seg.isPageTypeKind) with ht | hf
    · exfalso
      rw [Bool.and_eq_true] at ht
      exact hn ⟨(last_catchAll_iff p).mpr ht.1,
        (not_pageType_iff seg).mpr (by simpa using ht.2)⟩
    · exact hf

/-- Witness for C4: the failing case after a `CatchAll` and a succeeding
case on the empty container. -/
theorem C4_push_contract_witness :
    AppPage.push ⟨[.CatchAll ['a']]⟩ (.Static ['b'])
      = .error (.InvalidAppend (.Static ['b']))
    ∧ AppPage.push ⟨[]⟩ (.Static ['b']) = .ok ⟨[.Static ['b']]⟩ :=
  ⟨(C4_push_contract ⟨[.CatchAll ['a']]⟩ (.Static ['b'])).1
      ⟨Or.inl ⟨['a'], rfl⟩, fun _ h => PageSegment.noConfusion h⟩,
    (C4_push_contract ⟨[]⟩ (.Static ['b'])).2
      (by rintro ⟨hL | hL, -⟩ <;> rcases hL with ⟨n, hn⟩ <;> simp at hn)⟩

/-- C3 counterexample: pushing `CatchAll "a"`, then `PageType Page`, then
`Static "b"` all succeed, so a non-`PageType` segment can be appended at a
later position after a catch-all (the check only inspects the last entry),
contradicting the claim that every later append must be a `PageType`. -/
theorem C3_counterexample :
    AppPage.push ⟨[]⟩ (.CatchAll ['a']) = .ok ⟨[.CatchAll ['a']]⟩
  ∧ AppPage.push ⟨[.CatchAll ['a']]⟩ (.PageType .Page)
      = .ok ⟨[.CatchAll ['a'], .PageType .Page]⟩
  ∧ AppPage.push ⟨[.CatchAll ['a'], .PageType .Page]⟩ (.Static ['b'])
      = .ok ⟨[.CatchAll ['a'], .PageType .Page, .Static ['b']]⟩
  ∧ (PageSegment.Static ['b']).isPageTypeKind = false :=
  ⟨rfl, rfl, rfl, rfl⟩

/-- C3 (amended): while a `CatchAll` or `OptionalCatchAll` segment is the
container's last entry, an append succeeds only if the appended segment is
a `PageType` marker (the restriction applies to the immediately following
append, not to every later one). -/
theorem C3_amended_catchAll_last (p : AppPage) (seg : PageSegment)
    (hL : (∃ n, p.segments.getLast? = some (.CatchAll n))
        ∨ (∃ n, p.segments.getLast? = some (.OptionalCatchAll n)))
    (hPT : ∀ k, seg ≠ .PageType k) :
    p.push seg = .error (.InvalidAppend seg) := by
  refine push_invalid p seg ?_
  rw [Bool.and_eq_true]
  exact ⟨(last_catchAll_iff p).mp hL, by simp [(not_pageType_iff seg).mp hPT]⟩

/-- Witness for the amended C3 after an `OptionalCatchAll`. -/
theorem C3_amended_catchAll_last_witness :
    AppPage.push ⟨[.OptionalCatchAll ['a']]⟩ (.Dynamic ['b'])
      = .error (.InvalidAppend (.Dynamic ['b'])) :=
  C3_amended_catchAll_last ⟨[.OptionalCatchAll ['a']]⟩ (.Dynamic ['b'])
    (Or.inr ⟨['a'], rfl⟩) (fun _ h => PageSegment.noConfusion h)

/-- C5: append operations are atomic: whenever `push` or `push_str` reports
an error, the post-call state of the container equals the pre-call state;
and the `clone_push` / `clone_push_str` variants are functions of the
receiver that coincide with `push` / `push_str` on a clone, leaving the
receiver untouched. -/
theorem C5_append_atomicity :
    (∀ (p : AppPage) (seg : PageSegment) (e : SegmentError),
        (p.pushState seg).2 = some e → (p.pushState seg).1 = p)
  ∧ (∀ (p : AppPage) (t : Str) (e : SegmentError),
        (p.pushStrState t).2 = some e → (p.pushStrState t).1 = p)
  ∧ (∀ (p : AppPage) (seg : PageSegment), p.clonePush seg = p.push seg)
  ∧ (∀ (p : AppPage) (t : Str), p.clonePushStr t = p.pushStr t) :=
  ⟨pushState_error_fst, pushStrState_error_fst,
    fun _ _ => rfl, fun _ _ => rfl⟩

/-- Witness for C5: a failing `push` after a catch-all and a failing
`push_str` on a slash-containing token both leave the state unchanged. -/
theorem C5_append_atomicity_witness :
    ((AppPage.pushState ⟨[.CatchAll ['a']]⟩ (.Static ['b'])).2
        = some (.InvalidAppend (.Static ['b']))
      ∧ (AppPage.pushState ⟨[.CatchAll ['a']]⟩ (.Static ['b'])).1
        = ⟨[.CatchAll ['a']]⟩)
    ∧ ((AppPage.pushStrState ⟨[]⟩ "a/b".toList).2 = some .IllegalSlash
      ∧ (AppPage.pushStrState ⟨[]⟩ "a/b".toList).1 = ⟨[]⟩) :=
  ⟨⟨rfl, C5_append_atomicity.1 ⟨[.CatchAll ['a']]⟩ (.Static ['b'])
      (.InvalidAppend (.Static ['b'])) rfl⟩,
    ⟨rfl, C5_append_atomicity.2.1 ⟨[]⟩ "a/b".toList .IllegalSlash rfl⟩⟩

/-- C8: the Page→Path conversion is a total function characterized by: it
commutes with concatenation (so the relative order of retained entries is
preserved and nothing else is added), maps each `Static`/`Dynamic`/
`CatchAll`/`OptionalCatchAll` entry to the identically named path case with
the same name, and drops every `Group`, `Parallel`, and `PageType` entry. -/
theorem C8_path_derivation :
    (∀ l1 l2 : List PageSegment,
        (AppPath.ofAppPage ⟨l1 ++ l2⟩).segments
          = (AppPath.ofAppPage ⟨l1⟩).segments
            ++ (AppPath.ofAppPage ⟨l2⟩).segments)
  ∧ AppPath.ofAppPage ⟨[]⟩ = ⟨[]⟩
  ∧ (∀ s, AppPath.ofAppPage ⟨[.Static s]⟩ = ⟨[.Static s]⟩)
  ∧ (∀ s, AppPath.ofAppPage ⟨[.Dynamic s]⟩ = ⟨[.Dynamic s]⟩)
  ∧ (∀ s, AppPath.ofAppPage ⟨[.CatchAll s]⟩ = ⟨[.CatchAll s]⟩)
  ∧ (∀ s, AppPath.ofAppPage ⟨[.OptionalCatchAll s]⟩ = ⟨[.OptionalCatchAll s]⟩)
  ∧ (∀ s, AppPath.ofAppPage ⟨[.Group s]⟩ = ⟨[]⟩)
  ∧ (∀ s, AppPath.ofAppPage ⟨[.Parallel s]⟩ = ⟨[]⟩)
  ∧ (∀ k, AppPath.ofAppPage ⟨[.PageType k]⟩ = ⟨[]⟩) := by
  refine ⟨?_, rfl, fun s => rfl, fun s => rfl, fun s => rfl, fun s => rfl,
    fun s => rfl, fun s => rfl, fun k => rfl⟩
  intro l1 l2
  simp [AppPath.ofAppPage, List.filterMap_append]

/-- C9: both container renderings return `"/"` on the empty container and
otherwise the concatenation, in order, of `'/'` followed by each entry's
rendering; the two container types run the identical algorithm (equal entry
renderings give equal container renderings). -/
theorem C9_render_algorithm :
    AppPage.render ⟨[]⟩ = ['/']
  ∧ AppPath.render ⟨[]⟩ = ['/']
  ∧ (∀ l : List PageSegment, l ≠ [] →
      AppPage.render ⟨l⟩ = (l.map fun s => '/' :: s.render).flatten)
  ∧ (∀ l : List PathSegment, l ≠ [] →
      AppPath.render ⟨l⟩ = (l.map fun s => '/' :: s.render).flatten)
  ∧ (∀ (l1 : List PageSegment) (l2 : List PathSegment),
      l1.map PageSegment.render = l2.map PathSegment.render →
      AppPage.render ⟨l1⟩ = AppPath.render ⟨l2⟩) := by
  refine ⟨rfl, rfl, ?_, ?_, ?_⟩
  · intro l hl
    simp only [AppPage.render, if_neg hl]
    simpa using foldl_slash_eq PageSegment.render l []
  · intro l hl
    simp only [AppPath.render, if_neg hl]
    simpa using foldl_slash_eq PathSegment.render l []
  · intro l1 l2 hmap
    have hlen : l1.length = l2.length := by
      have := congrArg List.length hmap
      simpa using this
    by_cases hl1 : l1 = []
    · have hl2 : l2 = [] := by
        subst hl1
        exact List.length_eq_zero.mp (by simpa using hlen.symm)
      subst hl1; subst hl2
      rfl
    · have hl2 : l2 ≠ [] := by
        intro h
        subst h
        exact hl1 (List.length_eq_zero.mp (by simpa using hlen))
      simp only [AppPage.render, AppPath.render, if_neg hl1, if_neg hl2]
      rw [foldl_slash_eq PageSegment.render l1 [],
        foldl_slash_eq PathSegment.render l2 []]
      simp only [List.nil_append]
      have hm : l1.map (fun s => '/' :: PageSegment.render s)
          = l2.map (fun s => '/' :: PathSegment.render s) := by
        calc l1.map (fun s => '/' :: PageSegment.render s)
            = (l1.map PageSegment.render).map (fun r => '/' :: r) := by
              rw [List.map_map]; rfl
          _ = (l2.map PathSegment.render).map (fun r => '/' :: r) := by
              rw [hmap]
          _ = l2.map (fun s => '/' :: PathSegment.render s) := by
              rw [List.map_map]; rfl
      rw [hm]

/-- Witness for C9 at singleton containers, including equal renderings for
`PageType Page` (page side) against `Static "page"` (path side). -/
theorem C9_render_algorithm_witness :
    AppPage.render ⟨[.Static ['a']]⟩ = ['/', 'a']
    ∧ AppPath.render ⟨[.Dynamic ['i']]⟩ = "/[i]".toList
    ∧ AppPage.render ⟨[.PageType .Page]⟩
        = AppPath.render ⟨[.Static "page".toList]⟩ :=
  ⟨(C9_render_algorithm.2.2.1 [.Static ['a']] (by decide)).trans (by decide),
    (C9_render_algorithm.2.2.2.1 [.Dynamic ['i']] (by decide)).trans
      (by decide),
    C9_render_algorithm.2.2.2.2 [.PageType .Page] [.Static "page".toList]
      (by decide)⟩

/-- C2 counterexample: `AppPage::parse "/(group)/[id]/page"` parses the
token `"page"` as `Static "page"`, which the Page→Path conversion keeps, so
after appending `PageType Page` the derived path renders as `"/[id]/page"`,
not `"/[id]"` as the claim states. -/
theorem C2_counterexample :
    AppPage.parse "/(group)/[id]/page".toList
      = .ok ⟨[.Group "group".toList, .Dynamic "id".toList,
              .Static "page".toList]⟩
  ∧ AppPage.push ⟨[.Group "group".toList, .Dynamic "id".toList,
        .Static "page".toList]⟩ (.PageType .Page)
      = .ok ⟨[.Group "group".toList, .Dynamic "id".toList,
              .Static "page".toList, .PageType .Page]⟩
  ∧ (AppPath.ofAppPage ⟨[.Group "group".toList, .Dynamic "id".toList,
        .Static "page".toList, .PageType .Page]⟩).render
      = "/[id]/page".toList
  ∧ "/[id]/page".toList ≠ "/[id]".toList :=
  ⟨rfl, rfl, by decide, by decide⟩

/-- C2 (amended): the container parsed from `"/(group)/[id]/page"` with a
trailing `PageType Page` appended derives a path container rendering as
`"/[id]/page"` (the `"page"` token is a `Static` segment and is kept). -/
theorem C2_amended_path_render :
    ∃ p q : AppPage,
      AppPage.parse "/(group)/[id]/page".toList = .ok p
      ∧ p.push (.PageType .Page) = .ok q
      ∧ (AppPath.ofAppPage q).render = "/[id]/page".toList :=
  ⟨⟨[.Group "group".toList, .Dynamic "id".toList, .Static "page".toList]⟩,
    ⟨[.Group "group".toList, .Dynamic "id".toList, .Static "page".toList,
      .PageType .Page]⟩,
    rfl, rfl, by decide⟩

/-- C10: segment rendering is not injective: `Static "page"` and
`PageType Page` (resp. `Static "route"` and `PageType Route`) are distinct
values with equal renderings; re-parsing the rendering of `PageType Page`
yields `Static "page"`; and two distinct containers render identically. -/
theorem C10_render_not_injective :
    PageSegment.render (.Static "page".toList) = "page".toList
  ∧ PageSegment.render (.PageType .Page) = "page".toList
  ∧ PageSegment.Static "page".toList ≠ .PageType .Page
  ∧ PageSegment.render (.Static "route".toList) = "route".toList
  ∧ PageSegment.render (.PageType .Route) = "route".toList
  ∧ PageSegment.Static "route".toList ≠ .PageType .Route
  ∧ PageSegment.parse (PageSegment.render (.PageType .Page))
      = .ok (.Static "page".toList)
  ∧ AppPage.render ⟨[.PageType .Page]⟩
      = AppPage.render ⟨[.Static "page".toList]⟩
  ∧ (⟨[.PageType .Page]⟩ : AppPage) ≠ ⟨[.Static "page".toList]⟩ :=
  ⟨rfl, rfl, by decide, rfl, rfl, by decide, rfl, rfl, by decide⟩

end NextApp
